import Mathlib

/-!
Shallow embedding of the browser-lab server (Go) and proofs about it.

The embedding follows the source files:
* `session/session.go` — `Session`, `NewSession`, `Session.Stop`, `parseDevToolsURL`
* `session/manager.go` — `Manager.GetSession`, `Manager.DeleteSession`
* `main.go` — `resolveHost`, `resolveScheme`, `resolveWSScheme`,
  `stopSessionHandler`, `cdpProxyHandler`
* `webrtc.go` — `whipHandler`, `whipResourceHandler`,
  `streamScreencastToDataChannel` (the screencast pump)

Go byte slices are embedded as `List Nat`, Go maps keyed by string as
association lists with unique keys, and the outcomes of library calls that
can fail (JSON unmarshalling, base64 decoding, websocket / data-channel
sends) as `Option` values and `Bool` success flags supplied by the
environment.
-/

namespace BrowserLab

/-! ### Screencast pump: framing and chunking

`streamScreencastToDataChannel` chunks each decoded JPEG payload with
`const chunkSize = 60000` and the loop
`for i := 0; i < len(data); i += chunkSize`, sending `data[i:min(i+chunkSize,len)]`
for each iteration.
-/

/-- The fixed data-channel chunk size from the source (`const chunkSize = 60000`). -/
def chunkSize : Nat := 60000

theorem chunkSize_pos : 0 < chunkSize := by norm_num [chunkSize]

/-- The list of chunks the pump's chunking loop produces from a payload:
`data[0:60000], data[60000:120000], …`, the last chunk possibly shorter;
an empty payload produces no chunks (the loop body never runs). -/
def chunkPayload (data : List Nat) : List (List Nat) :=
  if data = [] then []
  else data.take chunkSize :: chunkPayload (data.drop chunkSize)
termination_by data.length
decreasing_by
  simp only [List.length_drop]
  exact Nat.sub_lt (List.length_pos.mpr (by assumption)) chunkSize_pos

/-- The chunk lengths as a function of the payload length only. -/
def chunkLens (n : Nat) : List Nat :=
  if n = 0 then []
  else min n chunkSize :: chunkLens (n - chunkSize)
termination_by n
decreasing_by
  exact Nat.sub_lt (Nat.pos_of_ne_zero (by assumption)) chunkSize_pos

theorem chunkPayload_nil : chunkPayload [] = [] := by
  rw [chunkPayload]
  simp

theorem chunkPayload_ne_nil (data : List Nat) (h : data ≠ []) :
    chunkPayload data = data.take chunkSize :: chunkPayload (data.drop chunkSize) := by
  rw [chunkPayload]
  simp [h]

theorem chunkLens_zero : chunkLens 0 = [] := by
  rw [chunkLens]
  simp

theorem chunkLens_succ (n : Nat) (h : n ≠ 0) :
    chunkLens n = min n chunkSize :: chunkLens (n - chunkSize) := by
  rw [chunkLens]
  simp [h]

/-- The chunk lengths are exactly `chunkLens` of the payload length. -/
theorem chunkPayload_lengths (data : List Nat) :
    (chunkPayload data).map List.length = chunkLens data.length := by
  have key : ∀ n (d : List Nat), d.length = n →
      (chunkPayload d).map List.length = chunkLens d.length := by
    intro n
    induction n using Nat.strong_induction_on with
    | _ n ih =>
      intro d hd
      by_cases hnil : d = []
      · subst hnil
        simp [chunkPayload_nil, chunkLens_zero]
      · have hpos : 0 < d.length := List.length_pos.mpr hnil
        rw [chunkPayload_ne_nil d hnil,
          chunkLens_succ d.length (Nat.pos_iff_ne_zero.mp hpos)]
        have hlt : (d.drop chunkSize).length < n := by
          rw [List.length_drop, ← hd]
          exact Nat.sub_lt hpos chunkSize_pos
        have htail := ih (d.drop chunkSize).length hlt (d.drop chunkSize) rfl
        simp only [List.map_cons, List.cons.injEq, List.length_take]
        refine ⟨Nat.min_comm _ _, ?_⟩
        rw [htail, List.length_drop]
  exact key data.length data rfl

/-- Concatenating the chunks recovers the payload exactly. -/
theorem chunkPayload_join (data : List Nat) :
    (chunkPayload data).flatten = data := by
  have key : ∀ n (d : List Nat), d.length = n → (chunkPayload d).flatten = d := by
    intro n
    induction n using Nat.strong_induction_on with
    | _ n ih =>
      intro d hd
      by_cases hnil : d = []
      · subst hnil
        simp [chunkPayload_nil]
      · have hpos : 0 < d.length := List.length_pos.mpr hnil
        rw [chunkPayload_ne_nil d hnil]
        have hlt : (d.drop chunkSize).length < n := by
          rw [List.length_drop, ← hd]
          exact Nat.sub_lt hpos chunkSize_pos
        have htail := ih (d.drop chunkSize).length hlt (d.drop chunkSize) rfl
        simp [htail]
  exact key data.length data rfl

/-- Every chunk but the last has length exactly `chunkSize`; every chunk is
nonempty and at most `chunkSize` long; the lengths sum to the payload length. -/
theorem chunkLens_spec (n : Nat) :
    (∀ l ∈ (chunkLens n).dropLast, l = chunkSize) ∧
    (∀ l ∈ chunkLens n, 0 < l ∧ l ≤ chunkSize) ∧
    (chunkLens n).sum = n := by
  induction n using Nat.strong_induction_on with
  | _ n ih =>
    by_cases h : n = 0
    · subst h
      simp [chunkLens_zero]
    · rw [chunkLens_succ n h]
      have hlt : n - chunkSize < n := Nat.sub_lt (Nat.pos_of_ne_zero h) chunkSize_pos
      obtain ⟨ih1, ih2, ih3⟩ := ih (n - chunkSize) hlt
      refine ⟨?_, ?_, ?_⟩
      · intro l hl
        cases hr : chunkLens (n - chunkSize) with
        | nil =>
          rw [hr] at hl
          simp at hl
        | cons b t =>
          rw [hr, List.dropLast_cons₂] at hl
          rcases List.mem_cons.mp hl with h1 | h2
          · have hne : n - chunkSize ≠ 0 := by
              intro h0
              rw [h0, chunkLens_zero] at hr
              cases hr
            have hcsle : chunkSize ≤ n := by
              by_contra hcon
              push_neg at hcon
              exact hne (Nat.sub_eq_zero_of_le (Nat.le_of_lt hcon))
            subst h1
            exact Nat.min_eq_right hcsle
          · exact ih1 l (by rw [hr]; exact h2)
      · intro l hl
        rcases List.mem_cons.mp hl with h1 | h2
        · subst h1
          refine ⟨Nat.pos_of_ne_zero (fun h0 => ?_), Nat.min_le_right _ _⟩
          rcases Nat.min_eq_zero_iff.mp h0 with h1 | h1
          · exact h h1
          · exact absurd h1 (Nat.pos_iff_ne_zero.mp chunkSize_pos)
        · exact ih2 l h2
      · rw [List.sum_cons, ih3]
        rcases Nat.le_total n chunkSize with hle | hle
        · rw [Nat.min_eq_left hle, Nat.sub_eq_zero_of_le hle, Nat.add_zero]
        · rw [Nat.min_eq_right hle, Nat.add_sub_cancel' hle]

/-! ### Screencast pump: the main read loop

`streamScreencastToDataChannel` reads debugger messages in a loop. For a
`Page.screencastFrame` event it unmarshals the params (on failure: `continue`),
base64-decodes the `data` field (on failure: `continue`), sends the
`{"type":"frame-start","size":N}` text message (on failure: `break` out of the
read loop), sends the payload in chunks (a failed chunk send `break`s only the
inner chunk loop), then increments `idCounter` and writes a
`Page.screencastFrameAck` under the writer mutex (a failed ack write is logged
and the loop continues). Any other method is ignored.

JSON unmarshalling and base64 decoding are embedded by their outcomes
(`Option`); data-channel and websocket send outcomes are supplied by a
`SendEnv` of success flags. -/

/-- Decoded params of a `Page.screencastFrame` event: the base64 decode outcome
of the `data` field (`none` when `base64.StdEncoding.DecodeString` fails) and
the `sessionId` used for the ack. -/
structure FrameParams where
  data : Option (List Nat)
  sessionId : Int
  deriving DecidableEq

/-- A CDP envelope as the pump sees it after `json.Unmarshal`: the `method`
string and the outcome of unmarshalling the params into
`WebRTCScreencastFrameParams` (`none` when that unmarshal fails). -/
structure CDPMessage where
  id : Option Int
  method : String
  params : Option FrameParams
  deriving DecidableEq

/-- An observable output of one pump iteration: the frame-start text message
(carrying its `size` field), one binary chunk send, or the
`Page.screencastFrameAck` write (carrying the echoed screencast session id and
the command id). Only sends that succeed appear. -/
inductive DCAction where
  | frameStart (size : Nat)
  | binaryChunk (chunk : List Nat)
  | ackWrite (sessionId : Int) (cmdId : Int)
  deriving DecidableEq

/-- Success flags for the fallible I/O of one frame iteration: the
`dc.SendText` of the frame-start message, each `dc.Send` of a binary chunk
(indexed by chunk position), and the `conn.WriteJSON` of the ack. -/
structure SendEnv where
  textOk : Bool
  chunkOk : Nat → Bool
  ackOk : Bool

/-- The inner chunk-send loop: sends chunks in order, stopping at the first
failed `dc.Send` (the Go `break` leaves the inner loop only). Returns the
successfully sent chunks and whether all sends succeeded. -/
def sendChunks (chunks : List (List Nat)) (ok : Nat → Bool) (i : Nat) :
    List DCAction × Bool :=
  match chunks with
  | [] => ([], true)
  | c :: rest =>
    if ok i then
      let r := sendChunks rest ok (i + 1)
      (DCAction.binaryChunk c :: r.1, r.2)
    else ([], false)

/-- One iteration of the pump's read loop on a successfully read and
unmarshalled message: returns the emitted actions, whether the loop continues
(`false` = the `break` out of the read loop), and the new `idCounter`. -/
def processMessage (msg : CDPMessage) (env : SendEnv) (idCounter : Int) :
    List DCAction × Bool × Int :=
  if msg.method = "Page.screencastFrame" then
    match msg.params with
    | none => ([], true, idCounter)
    | some p =>
      match p.data with
      | none => ([], true, idCounter)
      | some data =>
        if env.textOk then
          let chunkActs := (sendChunks (chunkPayload data) env.chunkOk 0).1
          let newId := idCounter + 1
          let ackActs :=
            if env.ackOk then [DCAction.ackWrite p.sessionId newId] else []
          (DCAction.frameStart data.length :: (chunkActs ++ ackActs), true, newId)
        else ([], false, idCounter)
  else ([], true, idCounter)

/-- The pump's read loop over a sequence of delivered messages: each message is
processed in order; once an iteration reports `break`, no further message is
consumed. -/
def runPump (msgs : List CDPMessage) (env : SendEnv) (idCounter : Int) :
    List DCAction :=
  match msgs with
  | [] => []
  | m :: rest =>
    let r := processMessage m env idCounter
    if r.2.1 then r.1 ++ runPump rest env r.2.2 else r.1

/-- A well-formed `Page.screencastFrame` event whose params unmarshal and whose
payload base64-decodes to `data`. -/
def frameMsg (data : List Nat) (sid : Int) : CDPMessage :=
  { id := none, method := "Page.screencastFrame",
    params := some { data := some data, sessionId := sid } }

/-- The environment in which every send succeeds. -/
def allOk : SendEnv := { textOk := true, chunkOk := fun _ => true, ackOk := true }

/-- Recognizer for ack actions. -/
def isAck : DCAction → Bool
  | DCAction.ackWrite _ _ => true
  | _ => false

theorem sendChunks_allOk (chunks : List (List Nat)) (i : Nat) :
    sendChunks chunks (fun _ => true) i = (chunks.map DCAction.binaryChunk, true) := by
  induction chunks generalizing i with
  | nil => rfl
  | cons c rest ih => simp [sendChunks, ih]

theorem sendChunks_no_ack (chunks : List (List Nat)) (ok : Nat → Bool) (i : Nat) :
    (sendChunks chunks ok i).1.filter isAck = [] := by
  induction chunks generalizing i with
  | nil => rfl
  | cons c rest ih =>
    by_cases h : ok i
    · simp [sendChunks, h, isAck, ih]
    · simp [sendChunks, h]

theorem sendChunks_take (chunks : List (List Nat)) (ok : Nat → Bool) (i : Nat) :
    ∃ k, (sendChunks chunks ok i).1 = (chunks.map DCAction.binaryChunk).take k := by
  induction chunks generalizing i with
  | nil => exact ⟨0, rfl⟩
  | cons c rest ih =>
    by_cases h : ok i
    · obtain ⟨k, hk⟩ := ih (i + 1)
      exact ⟨k + 1, by simp [sendChunks, h, hk]⟩
    · exact ⟨0, by simp [sendChunks, h]⟩

/-- If the payload fits in one chunk, the chunking loop emits it whole. -/
theorem chunkPayload_small (data : List Nat) (h1 : data ≠ [])
    (h2 : data.length ≤ chunkSize) : chunkPayload data = [data] := by
  rw [chunkPayload_ne_nil data h1, List.take_of_length_le h2,
    List.drop_eq_nil_of_le h2, chunkPayload_nil]

theorem chunkLens_60001 : chunkLens 60001 = [chunkSize, 1] := by
  have h1 : (60001 : Nat) ≠ 0 := by norm_num
  rw [chunkLens_succ 60001 h1]
  have hmin : min 60001 chunkSize = chunkSize :=
    Nat.min_eq_right (by norm_num [chunkSize])
  have hsub : 60001 - chunkSize = 1 := by norm_num [chunkSize]
  rw [hmin, hsub, chunkLens_succ 1 (by norm_num)]
  have hmin1 : min 1 chunkSize = 1 := Nat.min_eq_left (by norm_num [chunkSize])
  have hsub1 : 1 - chunkSize = 0 := by norm_num [chunkSize]
  rw [hmin1, hsub1, chunkLens_zero]

/-- Claim C2: for every `Page.screencastFrame` the pump forwards (all sends
succeeding), it first sends one frame-start message whose `size` field equals
the decoded JPEG byte length, then the payload as in-order binary chunks whose
concatenation is the payload, every chunk but the last being exactly 60,000
bytes and every chunk nonempty and at most 60,000 bytes, the chunk lengths
summing to the `size` field; a 60,001-byte payload splits as 60,000 + 1, and an
empty payload yields zero chunks. -/
theorem c2_frame_chunking (data : List Nat) (sid cnt : Int) :
    (processMessage (frameMsg data sid) allOk cnt).1 =
      DCAction.frameStart data.length ::
        ((chunkPayload data).map DCAction.binaryChunk ++
          [DCAction.ackWrite sid (cnt + 1)]) ∧
    (chunkPayload data).flatten = data ∧
    ((chunkPayload data).map List.length).sum = data.length ∧
    (∀ l ∈ ((chunkPayload data).map List.length).dropLast, l = chunkSize) ∧
    (∀ l ∈ (chunkPayload data).map List.length, 0 < l ∧ l ≤ chunkSize) ∧
    chunkLens 60001 = [chunkSize, 1] ∧
    chunkPayload [] = [] := by
  obtain ⟨hs1, hs2, hs3⟩ := chunkLens_spec data.length
  refine ⟨?_, chunkPayload_join data, ?_, ?_, ?_, chunkLens_60001, chunkPayload_nil⟩
  · simp [processMessage, frameMsg, allOk, sendChunks_allOk]
  · rw [chunkPayload_lengths]
    exact hs3
  · rw [chunkPayload_lengths]
    exact hs1
  · rw [chunkPayload_lengths]
    exact hs2

/-- Witness for Claim C2 at a concrete two-byte payload. -/
theorem c2_frame_chunking_witness :
    (processMessage (frameMsg [7, 8] 5) allOk 10).1 =
      [DCAction.frameStart 2, DCAction.binaryChunk [7, 8],
        DCAction.ackWrite 5 11] := by
  have h := (c2_frame_chunking [7, 8] 5 10).1
  rw [h, chunkPayload_small [7, 8] (by decide) (by norm_num [chunkSize])]
  rfl

theorem processMessage_frame_eq (msg : CDPMessage) (env : SendEnv) (cnt : Int)
    (p : FrameParams) (data : List Nat)
    (hm : msg.method = "Page.screencastFrame") (hp : msg.params = some p)
    (hd : p.data = some data) (ht : env.textOk = true) (ha : env.ackOk = true) :
    processMessage msg env cnt =
      (DCAction.frameStart data.length ::
        ((sendChunks (chunkPayload data) env.chunkOk 0).1 ++
          [DCAction.ackWrite p.sessionId (cnt + 1)]), true, cnt + 1) := by
  simp [processMessage, hm, hp, hd, ht, ha]

theorem processMessage_frame_ack_last (msg : CDPMessage) (env : SendEnv)
    (cnt : Int) (p : FrameParams) (data : List Nat)
    (hm : msg.method = "Page.screencastFrame") (hp : msg.params = some p)
    (hd : p.data = some data) (ht : env.textOk = true) (ha : env.ackOk = true) :
    (processMessage msg env cnt).1.getLast? =
      some (DCAction.ackWrite p.sessionId (cnt + 1)) := by
  rw [processMessage_frame_eq msg env cnt p data hm hp hd ht ha]
  simp only [← List.cons_append, List.getLast?_concat]

/-- Claim C3: for every `Page.screencastFrame` event the pump consumes (params
unmarshal, payload decodes, frame-start send and ack write succeed), the
iteration emits exactly one `Page.screencastFrameAck`, carrying the same
screencast session id, as its last action; the loop then continues, so the ack
precedes everything produced from the next consumed message. -/
theorem c3_ack_per_frame (msg : CDPMessage) (env : SendEnv) (cnt : Int)
    (rest : List CDPMessage) (p : FrameParams) (data : List Nat)
    (hm : msg.method = "Page.screencastFrame") (hp : msg.params = some p)
    (hd : p.data = some data) (ht : env.textOk = true) (ha : env.ackOk = true) :
    (processMessage msg env cnt).1.filter isAck =
      [DCAction.ackWrite p.sessionId (cnt + 1)] ∧
    (processMessage msg env cnt).1.getLast? =
      some (DCAction.ackWrite p.sessionId (cnt + 1)) ∧
    (processMessage msg env cnt).2.1 = true ∧
    runPump (msg :: rest) env cnt =
      (processMessage msg env cnt).1 ++ runPump rest env (cnt + 1) := by
  have hproc := processMessage_frame_eq msg env cnt p data hm hp hd ht ha
  refine ⟨?_, processMessage_frame_ack_last msg env cnt p data hm hp hd ht ha,
    ?_, ?_⟩
  · rw [hproc]
    simp [isAck, List.filter_append, sendChunks_no_ack]
  · rw [hproc]
  · simp [runPump, hproc]

/-- Witness for Claim C3 at a concrete one-byte frame. -/
theorem c3_ack_per_frame_witness :
    (processMessage (frameMsg [1] 9) allOk 0).1.filter isAck =
      [DCAction.ackWrite 9 1] := by
  exact (c3_ack_per_frame (frameMsg [1] 9) allOk 0 []
    { data := some [1], sessionId := 9 } [1] rfl rfl rfl rfl rfl).1

/-- Claim C9 counterexample: a binary chunk send fails (every chunk send in this
environment fails, and the payload `[5]` has one chunk), yet the iteration
reports that the read loop continues — the pump does not exit its main read
loop, contradicting the claim. -/
theorem c9_counterexample :
    (sendChunks (chunkPayload [5]) (fun _ => false) 0).2 = false ∧
    (processMessage (frameMsg [5] 3)
      { textOk := true, chunkOk := fun _ => false, ackOk := true } 0).2.1 = true := by
  have hcp : chunkPayload [5] = [[5]] :=
    chunkPayload_small [5] (by decide) (by norm_num [chunkSize])
  constructor
  · rw [hcp]
    rfl
  · simp [processMessage, frameMsg]

/-- Claim C9 amended: a failed frame-start text send exits the main read loop (no
actions are emitted and no further message is consumed); a failed binary chunk
send only aborts the remaining chunks of the current frame — the sent chunks
are a prefix of the frame's chunks, the loop continues, and the ack is still
written. -/
theorem c9_amended (data : List Nat) (sid cnt : Int) (env : SendEnv)
    (rest : List CDPMessage) :
    (env.textOk = false →
      processMessage (frameMsg data sid) env cnt = ([], false, cnt) ∧
      runPump (frameMsg data sid :: rest) env cnt = []) ∧
    (env.textOk = true →
      (processMessage (frameMsg data sid) env cnt).2.1 = true ∧
      (∃ k, (sendChunks (chunkPayload data) env.chunkOk 0).1 =
        ((chunkPayload data).map DCAction.binaryChunk).take k) ∧
      (env.ackOk = true →
        (processMessage (frameMsg data sid) env cnt).1.getLast? =
          some (DCAction.ackWrite sid (cnt + 1)))) := by
  constructor
  · intro hf
    have hproc : processMessage (frameMsg data sid) env cnt = ([], false, cnt) := by
      simp [processMessage, frameMsg, hf]
    exact ⟨hproc, by simp [runPump, hproc]⟩
  · intro ht
    refine ⟨?_, sendChunks_take _ _ _, ?_⟩
    · simp [processMessage, frameMsg, ht]
    · intro ha
      exact processMessage_frame_ack_last (frameMsg data sid) env cnt
        { data := some data, sessionId := sid } data rfl rfl rfl ht ha

/-- Witness for Claim C9 (amended) at concrete environments. -/
theorem c9_amended_witness :
    (processMessage (frameMsg [5] 3)
      { textOk := true, chunkOk := fun _ => false, ackOk := true } 0).2.1 = true ∧
    (processMessage (frameMsg [5] 3)
      { textOk := false, chunkOk := fun _ => false, ackOk := true } 0) =
      ([], false, 0) := by
  refine ⟨(((c9_amended [5] 3 0
    { textOk := true, chunkOk := fun _ => false, ackOk := true } []).2) rfl).1, ?_⟩
  exact (((c9_amended [5] 3 0
    { textOk := false, chunkOk := fun _ => false, ackOk := true } []).1) rfl).1

/-! ### Session lifecycle (session/session.go, session/manager.go)

`Session.Stop` is guarded by the per-session mutex and the `isClosed` flag;
when not yet closed it sets the flag, calls `cancel()` (terminating the
subprocess through its `exec.CommandContext` context) and `os.RemoveAll` on the
per-session data directory. The auto-cleanup goroutine of `NewSession` calls
`s.Stop()` when the lifetime elapses; it does not touch the manager's map.
`Manager.DeleteSession` calls `Stop` and then `delete(m.sessions, id)`. -/

/-- Per-session state: the `isClosed` flag plus counters for the two effects of
`Stop` — `cancel()` invocations (subprocess signalling) and `os.RemoveAll`
invocations (data-directory cleanup). -/
structure SessState where
  isClosed : Bool
  cancelCount : Nat
  removeCount : Nat
  deriving DecidableEq

/-- A session as `NewSession` returns it: open, no cleanup performed yet. -/
def freshSession : SessState :=
  { isClosed := false, cancelCount := 0, removeCount := 0 }

/-- `Session.Stop`: under the session mutex, return at once when already
closed; otherwise set the closed flag, cancel the subprocess context, and
remove the data directory. -/
def SessState.stop (s : SessState) : SessState :=
  if s.isClosed then s
  else { isClosed := true, cancelCount := s.cancelCount + 1,
         removeCount := s.removeCount + 1 }

/-- The manager's `sessions` map, as an association list with unique keys. -/
abbrev Registry := List (String × SessState)

/-- `Manager.GetSession`: map lookup returning the session and a presence
flag (`Option` here). -/
def getSession (m : Registry) (id : String) : Option SessState :=
  match m with
  | [] => none
  | (k, s) :: rest => if k = id then some s else getSession rest id

/-- The lifetime timer (or any other caller of `s.Stop()` that is not
`DeleteSession`) acting on the registry: the session object is stopped in
place; the map itself is not touched. -/
def lifetimeStop (m : Registry) (id : String) : Registry :=
  match m with
  | [] => []
  | (k, s) :: rest =>
    if k = id then (k, s.stop) :: lifetimeStop rest id
    else (k, s) :: lifetimeStop rest id

/-- Deletion of a key from the map (`delete(m.sessions, id)`). -/
def removeSession (m : Registry) (id : String) : Registry :=
  match m with
  | [] => []
  | (k, s) :: rest =>
    if k = id then removeSession rest id
    else (k, s) :: removeSession rest id

/-- `Manager.DeleteSession`: when the id is present, `s.Stop()` is called and
the entry is deleted from the map; otherwise nothing happens. -/
def deleteSession (m : Registry) (id : String) : Registry :=
  match getSession m id with
  | some _ => removeSession m id
  | none => m

/-- `stopSessionHandler`: `DELETE /sessions/{id}` calls `DeleteSession` and
writes `200 OK` unconditionally. -/
def stopSessionHandler (m : Registry) (id : String) : Registry × Nat :=
  (deleteSession m id, 200)

/-- Outcome of a handler that first resolves the session id. -/
inductive HTTPOutcome where
  | notFound
  | proceed
  deriving DecidableEq

/-- `cdpProxyHandler`: `GetSession`, then 404 when absent, else proceed to the
websocket proxy. -/
def cdpProxyHandler (m : Registry) (id : String) : HTTPOutcome :=
  match getSession m id with
  | none => HTTPOutcome.notFound
  | some _ => HTTPOutcome.proceed

/-- `whipHandler` (POST): `GetSession`, then 404 when absent, else proceed to
the WHIP negotiation. -/
def whipHandlerLookup (m : Registry) (id : String) : HTTPOutcome :=
  match getSession m id with
  | none => HTTPOutcome.notFound
  | some _ => HTTPOutcome.proceed

theorem getSession_lifetimeStop (m : Registry) (id : String) (s : SessState)
    (h : getSession m id = some s) :
    getSession (lifetimeStop m id) id = some s.stop := by
  induction m with
  | nil => cases h
  | cons e rest ih =>
    obtain ⟨k, s0⟩ := e
    by_cases hk : k = id
    · subst hk
      simp only [getSession, if_pos rfl] at h
      injection h with h
      subst h
      simp [lifetimeStop, getSession]
    · simp only [getSession, if_neg hk] at h
      simp only [lifetimeStop, if_neg hk, getSession]
      exact ih h

theorem getSession_remove (m : Registry) (id : String) :
    getSession (removeSession m id) id = none := by
  induction m with
  | nil => rfl
  | cons e rest ih =>
    obtain ⟨k, s0⟩ := e
    by_cases hk : k = id
    · subst hk
      simpa [removeSession] using ih
    · simp only [removeSession, if_neg hk, getSession]
      exact ih

theorem getSession_delete (m : Registry) (id : String) :
    getSession (deleteSession m id) id = none := by
  unfold deleteSession
  cases hx : getSession m id with
  | none => exact hx
  | some s => exact getSession_remove m id

/-- Claim C1 counterexample: a registry holding one open session `"s"`; its lifetime
timer fires and invokes `Stop`. The subsequent `GetSession` still returns the
(now closed) session instead of reporting absence, and the `/sessions/s/cdp`
handler proceeds instead of answering 404. -/
theorem c1_counterexample :
    getSession (lifetimeStop [("s", freshSession)] "s") "s" =
      some { isClosed := true, cancelCount := 1, removeCount := 1 } ∧
    cdpProxyHandler (lifetimeStop [("s", freshSession)] "s") "s" =
      HTTPOutcome.proceed := by
  constructor <;> rfl

/-- Claim C1 amended: `Stop` invoked by the lifetime timer (or by the subprocess
exiting) leaves the session in the registry — `GetSession` still returns it,
closed — and session-id lookups report absence (with the `/sessions/{id}/...`
session-resolving handlers answering 404) only after an explicit
`DeleteSession` removes the entry. -/
theorem c1_amended (m : Registry) (id : String) (s : SessState)
    (h : getSession m id = some s) :
    getSession (lifetimeStop m id) id = some s.stop ∧
    getSession (deleteSession m id) id = none ∧
    cdpProxyHandler (deleteSession m id) id = HTTPOutcome.notFound ∧
    whipHandlerLookup (deleteSession m id) id = HTTPOutcome.notFound := by
  refine ⟨getSession_lifetimeStop m id s h, getSession_delete m id, ?_, ?_⟩
  · unfold cdpProxyHandler
    rw [getSession_delete m id]
  · unfold whipHandlerLookup
    rw [getSession_delete m id]

/-- Witness for Claim C1 (amended) at a one-session registry. -/
theorem c1_amended_witness :
    getSession (lifetimeStop [("s", freshSession)] "s") "s" =
      some freshSession.stop ∧
    getSession (deleteSession [("s", freshSession)] "s") "s" = none := by
  have h := c1_amended [("s", freshSession)] "s" freshSession rfl
  exact ⟨h.1, h.2.1⟩

/-- Claim C4 counterexample: registry with one session `"s"`. The first
`DELETE /sessions/s` returns 200; the second `DELETE` of the same id — the
session now absent — also returns 200, not the 404 the claim states. -/
theorem c4_counterexample :
    (stopSessionHandler [("s", freshSession)] "s").2 = 200 ∧
    getSession (stopSessionHandler [("s", freshSession)] "s").1 "s" = none ∧
    (stopSessionHandler (stopSessionHandler [("s", freshSession)] "s").1 "s").2 =
      200 ∧
    (200 : Nat) ≠ 404 := by
  refine ⟨rfl, ?_, rfl, by norm_num⟩
  exact getSession_delete [("s", freshSession)] "s"

/-- Claim C4 amended: `DELETE /sessions/{id}` always returns 200; the first delete of
an existing session removes it, and a second delete of the same id is a no-op
on the registry (DeleteSession of an absent id leaves the map unchanged) that
still returns 200 rather than 404. -/
theorem c4_amended (m : Registry) (id : String) :
    (stopSessionHandler m id).2 = 200 ∧
    getSession (stopSessionHandler m id).1 id = none ∧
    (getSession m id = none → (stopSessionHandler m id).1 = m) := by
  refine ⟨rfl, getSession_delete m id, ?_⟩
  intro h
  simp [stopSessionHandler, deleteSession, h]

/-- Witness for Claim C4 (amended) at concrete registries. -/
theorem c4_amended_witness :
    getSession (stopSessionHandler [("s", freshSession)] "s").1 "s" = none ∧
    (stopSessionHandler ([] : Registry) "s").1 = [] := by
  exact ⟨(c4_amended [("s", freshSession)] "s").2.1,
    (c4_amended [] "s").2.2 rfl⟩

/-- Claim C8: `Stop` is idempotent — stopping a stopped session changes nothing, and
any positive number of `Stop` invocations (the lifetime timer and an explicit
delete in any interleaving, serialized by the session mutex) leaves the session
closed with the subprocess context cancelled exactly once and the data
directory removed exactly once. -/
theorem c8_stop_idempotent (s : SessState) (n : Nat) (h : 1 ≤ n) :
    s.stop.stop = s.stop ∧
    SessState.stop^[n] freshSession =
      { isClosed := true, cancelCount := 1, removeCount := 1 } := by
  constructor
  · unfold SessState.stop
    by_cases hc : s.isClosed
    · simp [hc]
    · simp [hc]
  · induction n with
    | zero => cases h
    | succ k ih =>
      by_cases hk : 1 ≤ k
      · rw [Function.iterate_succ_apply', ih hk]
        rfl
      · have : k = 0 := by omega
        subst this
        rfl

/-- Witness for Claim C8 with two Stop invocations. -/
theorem c8_stop_idempotent_witness :
    SessState.stop^[2] freshSession =
      { isClosed := true, cancelCount := 1, removeCount := 1 } :=
  (c8_stop_idempotent freshSession 2 (by norm_num)).2

/-! ### NewSession startup discovery (session/session.go)

`parseDevToolsURL` scans the subprocess's stderr for
`DevTools listening on <ws-url>` racing a 5-second timer; its outcome is one
of: URL found, timer fired first, or stderr closed without a match. On a
discovery error `NewSession` runs `cancel(); cmd.Process.Kill()` and returns
the error — it does not call `os.RemoveAll` on the data directory, and no
Session is constructed, so `CreateSession` stores nothing. -/

/-- Outcome of `parseDevToolsURL` (timing itself is not embedded; the three
possible race results are). -/
inductive Discovery where
  | found (url : String)
  | timeout
  | stderrClosed
  deriving DecidableEq

/-- The observable effects of one `NewSession` call. -/
structure NewSessionOutcome where
  processKilled : Bool
  ctxCancelled : Bool
  dataDirRemoved : Bool
  wsURL : Option String
  startupError : Bool
  deriving DecidableEq

/-- `NewSession`, by discovery outcome: on success a Session with the parsed
websocket URL; on timeout or stderr close, `cancel()` and `Process.Kill()` are
called and an error is returned — the data directory is left in place. -/
def newSession : Discovery → NewSessionOutcome
  | Discovery.found url =>
    { processKilled := false, ctxCancelled := false, dataDirRemoved := false,
      wsURL := some url, startupError := false }
  | Discovery.timeout =>
    { processKilled := true, ctxCancelled := true, dataDirRemoved := false,
      wsURL := none, startupError := true }
  | Discovery.stderrClosed =>
    { processKilled := true, ctxCancelled := true, dataDirRemoved := false,
      wsURL := none, startupError := true }

/-- `Manager.CreateSession`: delegates to `NewSession`; only a successful
session is stored in the map; on error the registry is untouched and the
caller gets the error (`false`). -/
def createSession (m : Registry) (id : String) (d : Discovery) :
    Registry × Bool :=
  match (newSession d).wsURL with
  | some _ => ((id, freshSession) :: m, true)
  | none => (m, false)

/-- Claim C5 counterexample: on the startup-timeout path the code kills the
subprocess and returns a startup error, but `dataDirRemoved` is false — the
claim's "removes the session's private data directory" fails at this input. -/
theorem c5_counterexample :
    (newSession Discovery.timeout).dataDirRemoved = false ∧
    (newSession Discovery.timeout).processKilled = true ∧
    (newSession Discovery.timeout).startupError = true := by
  exact ⟨rfl, rfl, rfl⟩

/-- Claim C5 amended: if no debugger URL is announced within the 5-second window,
session creation cancels the context, kills the subprocess, and returns a
startup-timeout error with no Session produced or registered — but it does
not remove the session's private data directory. -/
theorem c5_amended (m : Registry) (id : String) :
    newSession Discovery.timeout =
      { processKilled := true, ctxCancelled := true, dataDirRemoved := false,
        wsURL := none, startupError := true } ∧
    createSession m id Discovery.timeout = (m, false) ∧
    (∀ url, createSession m id (Discovery.found url) =
      ((id, freshSession) :: m, true)) := by
  exact ⟨rfl, rfl, fun _ => rfl⟩

/-! ### URL derivation (main.go) -/

/-- The parts of an `*http.Request` the URL derivation reads:
`r.Header.Get("X-Forwarded-Proto")` (empty string when absent), whether
`r.TLS != nil`, and `r.Host`. -/
structure HTTPRequest where
  xForwardedProto : String
  tls : Bool
  host : String

/-- `resolveHost`: `APP_HOST` when set, else the request's `Host` header. -/
def resolveHost (appHost : String) (r : HTTPRequest) : String :=
  if appHost ≠ "" then appHost else r.host

/-- `resolveScheme`: the `X-Forwarded-Proto` header value verbatim when the
header is present; else `https` when TLS is in use; else `https` when
`APP_HOST` is set; else `http`. -/
def resolveScheme (appHost : String) (r : HTTPRequest) : String :=
  if r.xForwardedProto ≠ "" then r.xForwardedProto
  else if r.tls then "https"
  else if appHost ≠ "" then "https"
  else "http"

/-- `resolveWSScheme`: `wss` exactly when `resolveScheme` said `https`. -/
def resolveWSScheme (appHost : String) (r : HTTPRequest) : String :=
  if resolveScheme appHost r = "https" then "wss" else "ws"

/-- The `cdp_url` field of a `SessionResponse`:
`fmt.Sprintf("%s://%s/sessions/%s/cdp", wsScheme, host, sess.ID)`. -/
def cdpURL (appHost : String) (r : HTTPRequest) (sid : String) : String :=
  resolveWSScheme appHost r ++ "://" ++ resolveHost appHost r ++
    "/sessions/" ++ sid ++ "/cdp"

/-- Claim C6 counterexample: with `APP_HOST` set (and even TLS on), a request whose
`X-Forwarded-Proto` header says `http` gets scheme `http` and websocket scheme
`ws` — the header is used verbatim and takes precedence, so the derived scheme
is not `https` and the `cdp_url` is not `wss://h/...`, contradicting both parts
of the claim. -/
theorem c6_counterexample :
    resolveScheme "h" { xForwardedProto := "http", tls := true, host := "e" } =
      "http" ∧
    resolveWSScheme "h" { xForwardedProto := "http", tls := false, host := "e" } =
      "ws" ∧
    cdpURL "h" { xForwardedProto := "http", tls := false, host := "e" } "S" =
      "ws://h/sessions/S/cdp" := by
  exact ⟨rfl, rfl, rfl⟩

/-- Claim C6 amended: a non-empty `X-Forwarded-Proto` header is adopted verbatim and
takes precedence over everything else; when the header is absent, the scheme is
`https` exactly when the request arrived over TLS or `APP_HOST` is set; the
websocket scheme is `wss` exactly when the scheme is `https`; and whenever
`APP_HOST=h` is set and the request carries no `X-Forwarded-Proto` header, the
`cdp_url` has scheme `wss` and host `h`. -/
theorem c6_amended (appHost : String) (r : HTTPRequest) (sid : String) :
    (r.xForwardedProto ≠ "" → resolveScheme appHost r = r.xForwardedProto) ∧
    (r.xForwardedProto = "" →
      (resolveScheme appHost r = "https" ↔ (r.tls = true ∨ appHost ≠ ""))) ∧
    (resolveWSScheme appHost r = "wss" ↔ resolveScheme appHost r = "https") ∧
    (appHost ≠ "" → resolveHost appHost r = appHost) ∧
    (appHost ≠ "" → r.xForwardedProto = "" →
      cdpURL appHost r sid = "wss://" ++ appHost ++ "/sessions/" ++ sid ++ "/cdp") := by
  have hscheme : appHost ≠ "" → r.xForwardedProto = "" →
      resolveScheme appHost r = "https" := by
    intro ha hx
    unfold resolveScheme
    rw [if_neg (by simp [hx])]
    by_cases ht : r.tls
    · rw [if_pos ht]
    · rw [if_neg ht, if_pos ha]
  refine ⟨?_, ?_, ?_, ?_, ?_⟩
  · intro h
    simp [resolveScheme, h]
  · intro h
    unfold resolveScheme
    rw [if_neg (by simp [h])]
    by_cases ht : r.tls
    · simp [ht]
    · by_cases ha : appHost = ""
      · simp [ht, ha]
      · simp [ht, ha]
  · unfold resolveWSScheme
    by_cases hs : resolveScheme appHost r = "https"
    · simp [hs]
    · simp [hs]
  · intro ha
    simp [resolveHost, ha]
  · intro ha hx
    unfold cdpURL
    rw [resolveWSScheme, if_pos (hscheme ha hx), resolveHost, if_pos ha]
    rfl

/-- Witness for Claim C6 (amended) with APP_HOST set and no header. -/
theorem c6_amended_witness :
    resolveScheme "h" { xForwardedProto := "", tls := false, host := "e" } =
      "https" ∧
    cdpURL "h" { xForwardedProto := "", tls := false, host := "e" } "S" =
      "wss://" ++ "h" ++ "/sessions/" ++ "S" ++ "/cdp" := by
  have h := c6_amended "h" { xForwardedProto := "", tls := false, host := "e" } "S"
  refine ⟨?_, h.2.2.2.2 (by decide) rfl⟩
  exact (h.2.1 rfl).mpr (Or.inr (by decide))

/-! ### WHIP resource lifecycle (webrtc.go)

`whipHandler` registers an `OnConnectionStateChange` callback that removes the
resource from `whipResources` when the peer-connection state becomes `Failed`
or `Closed` (without calling `Close`); `whipResourceHandler`'s DELETE branch
closes the peer connection under the resource mutex, removes the entry, and
answers 200; DELETE of an absent resource answers 404. -/

/-- The `webrtc.PeerConnectionState` values. -/
inductive PCState where
  | fresh
  | connecting
  | connected
  | disconnected
  | failed
  | closed
  deriving DecidableEq

/-- The source's terminal-state test:
`state == PeerConnectionStateFailed || state == PeerConnectionStateClosed`. -/
def isTerminal : PCState → Bool
  | PCState.failed => true
  | PCState.closed => true
  | _ => false

/-- A life-cycle event observable by one WHIP resource. -/
inductive WhipEvent where
  | httpDelete
  | connStateChange (s : PCState)
  deriving DecidableEq

/-- Result of one event: whether the resource is still in `whipResources`, how
many `PeerConnection.Close` calls the event performed, and the HTTP status an
HTTP-driven event answered. -/
structure WhipStepResult where
  present : Bool
  closes : Nat
  status : Option Nat
  deriving DecidableEq

/-- One event against one resource, as the two handlers implement it. -/
def whipStep (present : Bool) : WhipEvent → WhipStepResult
  | WhipEvent.httpDelete =>
    if present then { present := false, closes := 1, status := some 200 }
    else { present := false, closes := 0, status := some 404 }
  | WhipEvent.connStateChange s =>
    if isTerminal s then { present := false, closes := 0, status := none }
    else { present := present, closes := 0, status := none }

/-- A sequence of events: final presence and total number of `Close` calls. -/
def whipRun (present : Bool) : List WhipEvent → Bool × Nat
  | [] => (present, 0)
  | e :: rest =>
    let r := whipStep present e
    let rr := whipRun r.present rest
    (rr.1, r.closes + rr.2)

theorem whipStep_absent (e : WhipEvent) :
    (whipStep false e).present = false ∧ (whipStep false e).closes = 0 := by
  cases e with
  | httpDelete => exact ⟨rfl, rfl⟩
  | connStateChange s =>
    by_cases h : isTerminal s
    · simp [whipStep, h]
    · simp [whipStep, h]

theorem whipRun_absent (evs : List WhipEvent) :
    whipRun false evs = (false, 0) := by
  induction evs with
  | nil => rfl
  | cons e rest ih =>
    obtain ⟨h1, h2⟩ := whipStep_absent e
    simp [whipRun, h1, h2, ih]

theorem whipRun_le_one (evs : List WhipEvent) (p : Bool) :
    (whipRun p evs).2 ≤ 1 := by
  induction evs generalizing p with
  | nil => exact Nat.zero_le 1
  | cons e rest ih =>
    cases p with
    | false =>
      obtain ⟨h1, h2⟩ := whipStep_absent e
      simp [whipRun, h1, h2, whipRun_absent]
    | true =>
      cases e with
      | httpDelete =>
        simp [whipRun, whipStep, whipRun_absent]
      | connStateChange s =>
        by_cases h : isTerminal s
        · simpa [whipRun, whipStep, h] using ih false
        · simpa [whipRun, whipStep, h] using ih true

/-- Claim C7 counterexample: a registered resource whose peer connection enters the
terminal `failed` state is removed from the registry, but zero
`PeerConnection.Close` calls happen on this life-ending path — the connection
is not closed exactly once. -/
theorem c7_counterexample :
    whipRun true [WhipEvent.connStateChange PCState.failed] = (false, 0) ∧
    (0 : Nat) ≠ 1 := by
  exact ⟨rfl, by norm_num⟩

/-- Claim C7 amended: entering a terminal failed or closed state removes the resource
from the registry, and removal is idempotent (an already-absent resource stays
absent, with no effect); the peer connection is closed exactly once by the
DELETE handler when the resource is present, while the connection-state cleanup
path closes nothing; a DELETE of an absent resource answers 404 and closes
nothing; over any event sequence at most one `Close` ever happens. -/
theorem c7_amended (p : Bool) (s : PCState) (evs : List WhipEvent) :
    (isTerminal s = true →
      (whipStep p (WhipEvent.connStateChange s)).present = false ∧
      (whipStep p (WhipEvent.connStateChange s)).closes = 0) ∧
    (whipStep false (WhipEvent.connStateChange s)).present = false ∧
    whipStep true WhipEvent.httpDelete =
      { present := false, closes := 1, status := some 200 } ∧
    whipStep false WhipEvent.httpDelete =
      { present := false, closes := 0, status := some 404 } ∧
    whipRun false evs = (false, 0) ∧
    (whipRun p evs).2 ≤ 1 := by
  refine ⟨?_, (whipStep_absent _).1, rfl, rfl, whipRun_absent evs, whipRun_le_one evs p⟩
  intro h
  simp [whipStep, h]

/-- Witness for Claim C7 (amended) at concrete events. -/
theorem c7_amended_witness :
    (whipStep true (WhipEvent.connStateChange PCState.closed)).present = false ∧
    (whipRun true [WhipEvent.httpDelete, WhipEvent.httpDelete]).2 ≤ 1 := by
  refine ⟨((c7_amended true PCState.closed []).1 rfl).1, ?_⟩
  exact (c7_amended true PCState.closed
    [WhipEvent.httpDelete, WhipEvent.httpDelete]).2.2.2.2.2

/-! ### WHIP body read (webrtc.go)

`whipHandler` reads the SDP offer with
`offerSDP = make([]byte, r.ContentLength); r.Body.Read(offerSDP)` — a single
`Read` call whose byte count is discarded. The body is delivered by the
transport as a sequence of reads; only the first lands in the buffer, the rest
of which remains zero bytes. -/

/-- The offer bytes the handler parses, given the successive byte slices the
transport's `Read` calls would return and the request's `ContentLength`. -/
def whipReadOffer (reads : List (List Nat)) (contentLength : Nat) : List Nat :=
  match reads with
  | [] => List.replicate contentLength 0
  | c :: _ => c.take contentLength ++ List.replicate (contentLength - c.length) 0

/-- Claim C10: a 4-byte body delivered in two 2-byte reads. The handler parses
`[1, 2, 0, 0]` — the first read followed by zero padding — instead of the
complete body `[1, 2, 3, 4]`; the claimed read-until-EOF behavior does not hold
in the code. -/
theorem c10_truncation :
    whipReadOffer [[1, 2], [3, 4]] 4 = [1, 2, 0, 0] ∧
    [[1, 2], [3, 4]].flatten = [1, 2, 3, 4] ∧
    whipReadOffer [[1, 2], [3, 4]] 4 ≠ [[1, 2], [3, 4]].flatten := by
  refine ⟨rfl, rfl, by decide⟩

end BrowserLab
